import Mathlib

/-!
Verification of the agentropic-runtime scheduler and supervisor core.

Each Rust data type and operation used by the claims is shallowly embedded:
pure constructors and getters become Lean functions, `&mut self` methods
become state-passing functions returning the updated value, `u32` fields
whose arithmetic can overflow are modelled as `Nat` reduced modulo `2^32`,
and `std::time::Instant` is modelled as an abstract `Nat` tick supplied by
the caller.
-/

namespace Agentropic

/-- `AgentId` from `agentropic_core`: an opaque, equality-comparable
identifier.  Modelled as a string. -/
abbrev AgentId := String

/-- `Task` from `src/scheduler/task_queue.rs`: target agent plus a `u32`
priority. -/
structure Task where
  agent_id : AgentId
  priority : Nat
deriving DecidableEq

/-- `Task::new` -/
def Task.new (agent_id : AgentId) (priority : Nat) : Task :=
  { agent_id := agent_id, priority := priority }

/-- `TaskQueue` from `src/scheduler/task_queue.rs`: a `VecDeque<Task>`,
modelled as a list whose head is the front of the deque. -/
structure TaskQueue where
  tasks : List Task
deriving DecidableEq

/-- `TaskQueue::new` -/
def TaskQueue.new : TaskQueue :=
  { tasks := [] }

/-- `TaskQueue::push`: `push_back` onto the deque. -/
def TaskQueue.push (q : TaskQueue) (task : Task) : TaskQueue :=
  { q with tasks := q.tasks ++ [task] }

/-- `TaskQueue::pop`: `pop_front`, returning the removed task (if any)
together with the updated queue. -/
def TaskQueue.pop (q : TaskQueue) : Option Task × TaskQueue :=
  match q.tasks with
  | [] => (none, q)
  | t :: rest => (some t, { tasks := rest })

/-- `TaskQueue::is_empty` -/
def TaskQueue.is_empty (q : TaskQueue) : Bool :=
  q.tasks.isEmpty

/-- `TaskQueue::len` -/
def TaskQueue.len (q : TaskQueue) : Nat :=
  q.tasks.length

/-- `TaskQueue::clear` -/
def TaskQueue.clear (_q : TaskQueue) : TaskQueue :=
  { tasks := [] }

/-- A sequence of `push` calls, earliest task first. -/
def TaskQueue.pushAll (q : TaskQueue) : List Task → TaskQueue
  | [] => q
  | t :: ts => (q.push t).pushAll ts

/-- `n` successive `pop` calls, collecting the returned tasks in order;
stops early if a pop reports the queue empty. -/
def TaskQueue.popList (q : TaskQueue) : Nat → List Task
  | 0 => []
  | n + 1 =>
    match q.pop with
    | (none, _) => []
    | (some t, q') => t :: q'.popList n

theorem TaskQueue.pushAll_tasks (ts : List Task) :
    ∀ q : TaskQueue, (q.pushAll ts).tasks = q.tasks ++ ts := by
  induction ts with
  | nil => intro q; simp [pushAll]
  | cons t ts ih =>
      intro q
      show ((q.push t).pushAll ts).tasks = q.tasks ++ t :: ts
      rw [ih (q.push t)]
      simp [push]

theorem TaskQueue.popList_self (l : List Task) :
    TaskQueue.popList { tasks := l } l.length = l := by
  induction l with
  | nil => rfl
  | cons t rest ih => simp [popList, pop, ih]

/-- C1: TaskQueue is FIFO — pushing a sequence of tasks onto a fresh queue
with no intervening pops, then popping as many times as there are tasks,
returns the tasks in exactly their push (arrival) order. -/
theorem taskQueue_fifo (ts : List Task) :
    (TaskQueue.new.pushAll ts).popList (TaskQueue.new.pushAll ts).len = ts := by
  have h : (TaskQueue.new.pushAll ts) = { tasks := ts } := by
    have h2 := TaskQueue.pushAll_tasks ts TaskQueue.new
    cases hq : TaskQueue.new.pushAll ts with
    | mk l =>
        rw [hq] at h2
        simp [TaskQueue.new] at h2
        rw [h2]
  rw [h]
  simpa [TaskQueue.len] using TaskQueue.popList_self ts

/-- C2: `pop()` on an empty TaskQueue returns `None`, never fails, and
leaves the queue unchanged (still empty). -/
theorem taskQueue_pop_empty (q : TaskQueue) (h : q.is_empty = true) :
    q.pop = (none, q) ∧ (q.pop.2).is_empty = true := by
  cases q with
  | mk tasks =>
      cases tasks with
      | nil => exact ⟨rfl, h⟩
      | cons t rest => simp [TaskQueue.is_empty] at h

theorem taskQueue_pop_empty_witness :
    TaskQueue.new.pop = (none, TaskQueue.new) ∧
      (TaskQueue.new.pop.2).is_empty = true :=
  taskQueue_pop_empty TaskQueue.new rfl

/-- C10: push/pop round-trip — pushing `Task::new(a, p)` onto an empty queue
and popping returns that task (same `agent_id` and `priority`), and the
queue is empty again (`is_empty` true, `len` zero). -/
theorem taskQueue_push_pop_roundtrip (a : AgentId) (p : Nat) :
    ((TaskQueue.new.push (Task.new a p)).pop).1 = some (Task.new a p) ∧
      (Task.new a p).agent_id = a ∧ (Task.new a p).priority = p ∧
      (((TaskQueue.new.push (Task.new a p)).pop).2).is_empty = true ∧
      (((TaskQueue.new.push (Task.new a p)).pop).2).len = 0 :=
  ⟨rfl, rfl, rfl, rfl, rfl⟩

/-- `HealthStatus` from `src/supervisor/health_check.rs`. -/
inductive HealthStatus where
  | Healthy
  | Unhealthy
  | Unknown
deriving DecidableEq

/-- `HealthCheck` from `src/supervisor/health_check.rs`: current status,
optional `Instant` of the last observation (modelled as a `Nat` tick), and
a `u32` consecutive-failure counter (kept below `2^32` by the operations). -/
structure HealthCheck where
  status : HealthStatus
  last_check : Option Nat
  failures : Nat
deriving DecidableEq

/-- `HealthCheck::new` -/
def HealthCheck.new : HealthCheck :=
  { status := HealthStatus.Unknown, last_check := none, failures := 0 }

/-- `impl Default for HealthCheck` -/
def HealthCheck.mkDefault : HealthCheck :=
  HealthCheck.new

/-- `HealthCheck::record_healthy`; `now` stands for `Instant::now()`. -/
def HealthCheck.record_healthy (hc : HealthCheck) (now : Nat) : HealthCheck :=
  { hc with
      status := HealthStatus.Healthy
      last_check := some now
      failures := 0 }

/-- `HealthCheck::record_unhealthy`; `now` stands for `Instant::now()`.
`failures += 1` is `u32` addition, so it wraps modulo `2^32`. -/
def HealthCheck.record_unhealthy (hc : HealthCheck) (now : Nat) : HealthCheck :=
  { hc with
      status := HealthStatus.Unhealthy
      last_check := some now
      failures := (hc.failures + 1) % 2 ^ 32 }

/-- `HealthCheck::is_healthy` -/
def HealthCheck.is_healthy (hc : HealthCheck) : Bool :=
  hc.status = HealthStatus.Healthy

/-- C5: from any prior status and failure count, `record_healthy()` sets the
status to Healthy and resets the consecutive-failure counter to zero (and
records the observation time). -/
theorem healthCheck_record_healthy_resets (hc : HealthCheck) (now : Nat) :
    (hc.record_healthy now).status = HealthStatus.Healthy ∧
      (hc.record_healthy now).failures = 0 ∧
      (hc.record_healthy now).last_check = some now :=
  ⟨rfl, rfl, rfl⟩

/-- C6: a fresh `HealthCheck` (`new`, and equivalently `Default::default`)
has status Unknown, zero failures and no recorded observation timestamp. -/
theorem healthCheck_initial_state :
    HealthCheck.new.status = HealthStatus.Unknown ∧
      HealthCheck.new.failures = 0 ∧
      HealthCheck.new.last_check = none ∧
      HealthCheck.mkDefault = HealthCheck.new :=
  ⟨rfl, rfl, rfl, rfl⟩

/-- C7 (amended): for every `HealthCheck` whose `u32` failure counter is not
already at `u32::MAX`, `record_unhealthy()` sets the status to Unhealthy and
increases the counter by exactly one; at `u32::MAX` the counter wraps. -/
theorem healthCheck_record_unhealthy_increments (hc : HealthCheck) (now : Nat)
    (h : hc.failures + 1 < 2 ^ 32) :
    (hc.record_unhealthy now).status = HealthStatus.Unhealthy ∧
      (hc.record_unhealthy now).failures = hc.failures + 1 ∧
      (hc.record_unhealthy now).last_check = some now := by
  refine ⟨rfl, ?_, rfl⟩
  simp only [HealthCheck.record_unhealthy]
  exact Nat.mod_eq_of_lt h

theorem healthCheck_record_unhealthy_increments_witness :
    (HealthCheck.new.record_unhealthy 7).status = HealthStatus.Unhealthy ∧
      (HealthCheck.new.record_unhealthy 7).failures = HealthCheck.new.failures + 1 ∧
      (HealthCheck.new.record_unhealthy 7).last_check = some 7 :=
  healthCheck_record_unhealthy_increments HealthCheck.new 7 (by decide)

/-- C7 counterexample: at failure count `u32::MAX = 2^32 - 1`, the `u32`
increment wraps to zero instead of increasing the counter by one, so the
unrestricted claim is false at this concrete state. -/
theorem healthCheck_record_unhealthy_wraps_at_max :
    ¬ ((HealthCheck.record_unhealthy
          { status := HealthStatus.Unknown, last_check := none,
            failures := 2 ^ 32 - 1 } 0).failures =
        (2 ^ 32 - 1) + 1) := by
  decide

/-- `PolicyType` from `src/scheduler/policy.rs`. -/
inductive PolicyType where
  | FairShare
  | Priority
  | RoundRobin
  | FCFS
deriving DecidableEq

/-- `SchedulingPolicy` from `src/scheduler/policy.rs`: a policy type plus an
ordered list of `(String, f64)` parameter pairs. -/
structure SchedulingPolicy where
  policy_type : PolicyType
  parameters : List (String × Float)

/-- `SchedulingPolicy::new` -/
def SchedulingPolicy.new (policy_type : PolicyType) : SchedulingPolicy :=
  { policy_type := policy_type, parameters := [] }

/-- `SchedulingPolicy::with_parameter`: pushes `(name, value)` onto the end
of the parameter vector and returns the updated policy. -/
def SchedulingPolicy.with_parameter (p : SchedulingPolicy) (name : String)
    (value : Float) : SchedulingPolicy :=
  { p with parameters := p.parameters ++ [(name, value)] }

/-- C8: `with_parameter` appends one `(name, value)` pair at the end of the
parameter list; duplicate names are kept (both entries retained, in
insertion order), and a fresh policy starts with no parameters. -/
theorem schedulingPolicy_parameters_accumulate (p : SchedulingPolicy)
    (n m : String) (v w : Float) :
    (p.with_parameter n v).parameters = p.parameters ++ [(n, v)] ∧
      ((p.with_parameter n v).with_parameter n w).parameters =
        p.parameters ++ [(n, v), (n, w)] ∧
      (SchedulingPolicy.new p.policy_type).parameters = [] ∧
      ((p.with_parameter n v).with_parameter m w).policy_type = p.policy_type := by
  refine ⟨rfl, ?_, rfl, rfl⟩
  simp [SchedulingPolicy.with_parameter]

/-- `PriorityScheduler` from `src/scheduler/priority.rs`: holds only the
`u32` level count. -/
structure PriorityScheduler where
  levels : Nat
deriving DecidableEq

/-- `PriorityScheduler::new`: stores `levels` unchanged, with no validation
of any kind. -/
def PriorityScheduler.new (levels : Nat) : PriorityScheduler :=
  { levels := levels }

/-- `impl Default for PriorityScheduler` -/
def PriorityScheduler.mkDefault : PriorityScheduler :=
  PriorityScheduler.new 5

/-- C9: the default `PriorityScheduler` has exactly 5 priority levels, and
`levels()` returns the constructor argument for every argument. -/
theorem priorityScheduler_levels (n : Nat) :
    PriorityScheduler.mkDefault.levels = 5 ∧
      (PriorityScheduler.new n).levels = n :=
  ⟨rfl, rfl⟩

/-- C3: contrary to the claim, `PriorityScheduler::new(0)` succeeds — the
constructor performs no validation and produces a scheduler whose
`levels()` is 0; zero priority levels is not rejected at construction. -/
theorem priorityScheduler_new_zero_succeeds :
    (PriorityScheduler.new 0).levels = 0 ∧
      PriorityScheduler.new 0 = { levels := 0 } :=
  ⟨rfl, rfl⟩

/-- Modelled from the spec: `CircuitState` (spec §3). The file
`src/supervisor/circuit_breaker.rs` is declared in `src/supervisor/mod.rs`
but its source is not present under `src/`. -/
inductive CircuitState where
  | Closed
  | Open
  | HalfOpen
deriving DecidableEq

/-- Modelled from the spec: `CircuitBreaker` (spec §3, §4.3) — per-agent
state plus failure count, the configured threshold and cool-down, and the
time of the last transition to Open (times are abstract `Nat` ticks). The
implementation file is missing from `src/`. -/
structure CircuitBreaker where
  state : CircuitState
  failures : Nat
  threshold : Nat
  cooldown : Nat
  opened_at : Option Nat
deriving DecidableEq

/-- Modelled from the spec (§4.3): a reported failure. In Closed, the
failure count is incremented and, when it reaches the threshold, the
breaker transitions to Open and records the transition time. In HalfOpen,
the trial failed: transition back to Open and reset the cool-down timer.
In Open dispatch is forbidden, so a report leaves the state unchanged. -/
def CircuitBreaker.record_failure (cb : CircuitBreaker) (now : Nat) :
    CircuitBreaker :=
  match cb.state with
  | CircuitState.Closed =>
      let f := cb.failures + 1
      if cb.threshold ≤ f then
        { cb with state := CircuitState.Open, failures := f,
                  opened_at := some now }
      else
        { cb with failures := f }
  | CircuitState.Open => cb
  | CircuitState.HalfOpen =>
      { cb with state := CircuitState.Open, opened_at := some now }

/-- Modelled from the spec (§4.3): a reported success. In HalfOpen, the
trial succeeded: transition to Closed and reset the failure count to zero.
In Closed, a success resets the consecutive-failure count. In Open,
dispatch is forbidden, so nothing changes. -/
def CircuitBreaker.record_success (cb : CircuitBreaker) : CircuitBreaker :=
  match cb.state with
  | CircuitState.HalfOpen =>
      { cb with state := CircuitState.Closed, failures := 0 }
  | CircuitState.Closed => { cb with failures := 0 }
  | CircuitState.Open => cb

/-- Modelled from the spec (§4.3): the passage of time. In Open, once the
configured cool-down has elapsed since the recorded transition time, the
breaker transitions to HalfOpen; no other state is time-sensitive. -/
def CircuitBreaker.tick (cb : CircuitBreaker) (now : Nat) : CircuitBreaker :=
  match cb.state, cb.opened_at with
  | CircuitState.Open, some t =>
      if t + cb.cooldown ≤ now then { cb with state := CircuitState.HalfOpen }
      else cb
  | _, _ => cb

/-- `k` consecutive failure reports, all at time `now`. -/
def CircuitBreaker.failN (cb : CircuitBreaker) (now : Nat) : Nat → CircuitBreaker
  | 0 => cb
  | k + 1 => (cb.record_failure now).failN now k

theorem CircuitBreaker.failN_succ (now : Nat) :
    ∀ (k : Nat) (cb : CircuitBreaker),
      cb.failN now (k + 1) = (cb.failN now k).record_failure now := by
  intro k
  induction k with
  | zero => intro cb; rfl
  | succ k ih =>
      intro cb
      show (cb.record_failure now).failN now (k + 1) = _
      rw [ih (cb.record_failure now)]
      rfl

theorem CircuitBreaker.record_failure_closed_below (cb : CircuitBreaker)
    (now : Nat) (hs : cb.state = CircuitState.Closed)
    (hlt : cb.failures + 1 < cb.threshold) :
    cb.record_failure now =
      { cb with failures := cb.failures + 1 } := by
  simp only [record_failure, hs]
  rw [if_neg (by omega)]

theorem CircuitBreaker.record_failure_closed_reach (cb : CircuitBreaker)
    (now : Nat) (hs : cb.state = CircuitState.Closed)
    (hge : cb.threshold ≤ cb.failures + 1) :
    (cb.record_failure now).state = CircuitState.Open := by
  simp only [record_failure, hs]
  rw [if_pos hge]

theorem CircuitBreaker.failN_closed (now : Nat) :
    ∀ (k : Nat) (cb : CircuitBreaker), cb.state = CircuitState.Closed →
      cb.failures + k < cb.threshold →
      (cb.failN now k).state = CircuitState.Closed ∧
        (cb.failN now k).failures = cb.failures + k ∧
        (cb.failN now k).threshold = cb.threshold := by
  intro k
  induction k with
  | zero => intro cb hs _; exact ⟨hs, rfl, rfl⟩
  | succ k ih =>
      intro cb hs hlt
      have hstep := cb.record_failure_closed_below now hs (by omega)
      have hfail : cb.failN now (k + 1) =
          ({ cb with failures := cb.failures + 1 }).failN now k := by
        show (cb.record_failure now).failN now k = _
        rw [hstep]
      have hrec := ih { cb with failures := cb.failures + 1 } hs
        (by show cb.failures + 1 + k < cb.threshold; omega)
      refine ⟨?_, ?_, ?_⟩
      · rw [hfail]; exact hrec.1
      · rw [hfail, hrec.2.1]
        show cb.failures + 1 + k = cb.failures + (k + 1)
        omega
      · rw [hfail, hrec.2.2]

/-- C4: the CircuitBreaker state machine. (1) Fewer than `threshold`
consecutive Closed-state failures leave the breaker Closed, and (2) exactly
`threshold` of them transition it to Open; (3) no single event (failure,
success, or the passage of time) ever takes an Open breaker directly to
Closed; (4) a success observed in HalfOpen transitions the breaker to
Closed and resets the failure count to zero. -/
theorem circuitBreaker_state_machine :
    (∀ (cb : CircuitBreaker) (now k : Nat),
        cb.state = CircuitState.Closed → cb.failures = 0 →
        k < cb.threshold →
        (cb.failN now k).state = CircuitState.Closed) ∧
      (∀ (cb : CircuitBreaker) (now : Nat),
        cb.state = CircuitState.Closed → cb.failures = 0 →
        0 < cb.threshold →
        (cb.failN now cb.threshold).state = CircuitState.Open) ∧
      (∀ (cb : CircuitBreaker) (now : Nat), cb.state = CircuitState.Open →
        (cb.record_failure now).state ≠ CircuitState.Closed ∧
          cb.record_success.state ≠ CircuitState.Closed ∧
          (cb.tick now).state ≠ CircuitState.Closed) ∧
      (∀ cb : CircuitBreaker, cb.state = CircuitState.HalfOpen →
        cb.record_success.state = CircuitState.Closed ∧
          cb.record_success.failures = 0) := by
  refine ⟨?_, ?_, ?_, ?_⟩
  · intro cb now k hs hf hk
    exact (CircuitBreaker.failN_closed now k cb hs (by omega)).1
  · intro cb now hs hf hpos
    obtain ⟨m, hm⟩ : ∃ m, cb.threshold = m + 1 :=
      ⟨cb.threshold - 1, by omega⟩
    have hrun := CircuitBreaker.failN_closed now m cb hs (by omega)
    rw [hm, CircuitBreaker.failN_succ]
    exact (cb.failN now m).record_failure_closed_reach now hrun.1 (by omega)
  · intro cb now hs
    refine ⟨?_, ?_, ?_⟩
    · simp [CircuitBreaker.record_failure, hs]
    · simp [CircuitBreaker.record_success, hs]
    · simp only [CircuitBreaker.tick, hs]
      cases cb.opened_at with
      | none => simp [hs]
      | some t =>
          by_cases hc : t + cb.cooldown ≤ now
          · simp [hc]
          · simp [hc, hs]
  · intro cb hs
    constructor
    · simp [CircuitBreaker.record_success, hs]
    · simp [CircuitBreaker.record_success, hs]

theorem circuitBreaker_state_machine_witness :
    (({ state := CircuitState.Closed, failures := 0, threshold := 3,
        cooldown := 10, opened_at := none } : CircuitBreaker).failN 0 2).state =
        CircuitState.Closed ∧
      (({ state := CircuitState.Closed, failures := 0, threshold := 3,
          cooldown := 10, opened_at := none } : CircuitBreaker).failN 0 3).state =
        CircuitState.Open ∧
      (({ state := CircuitState.Open, failures := 3, threshold := 3,
          cooldown := 10, opened_at := some 0 } : CircuitBreaker).record_success).state ≠
        CircuitState.Closed ∧
      (({ state := CircuitState.HalfOpen, failures := 3, threshold := 3,
          cooldown := 10, opened_at := some 0 } : CircuitBreaker).record_success).state =
        CircuitState.Closed ∧
      (({ state := CircuitState.HalfOpen, failures := 3, threshold := 3,
          cooldown := 10, opened_at := some 0 } : CircuitBreaker).record_success).failures =
        0 := by
  have h := circuitBreaker_state_machine
  refine ⟨?_, ?_, ?_, ?_, ?_⟩
  · exact h.1 _ 0 2 rfl rfl (by decide)
  · exact h.2.1 _ 0 rfl rfl (by decide)
  · exact (h.2.2.1 _ 0 rfl).2.1
  · exact (h.2.2.2 _ rfl).1
  · exact (h.2.2.2 _ rfl).2

end Agentropic
